import Mathlib

/-!
Verification of the ring-road network specification subsystem of the Flow
tutorial `tutorial05_scenarios.ipynb` (generator class `myGenerator`,
scenario class `myScenario`).

The tutorial code builds SUMO descriptors for a circular ("ring road")
network of radius `r`:

* `specify_nodes` returns four node dictionaries at the bottom, right, top
  and left of the circle; every numeric attribute is serialized through
  Python's `repr`, producing a string.
* `specify_edges` returns four edge dictionaries, each an arc of a quarter
  circle of length `r * pi / 2`, again with numeric attributes passed
  through `repr`, and a `shape` attribute that is a space-separated list of
  `"x,y"` points formatted with `"%.2f"`.
* `specify_routes` returns the four cyclic routes of the ring.
* `specify_edge_starts` returns the 1-D global offsets of the four edges.

Position resolution (`global_position`, `locate`) and the route-table
successor (`next_edge`) live in Flow's base classes, which are not part of
the tutorial source; they are modelled from the specification and marked as
such below.
-/

open Real

namespace Flow

/-- A Python value stored in a SUMO descriptor dictionary.  `PyVal.str v`
models the Python string `repr(v)` for a number `v`: `repr` is injective on
numbers, so the modelled string is identified by the value it prints.  No
claim depends on the digit sequence produced by `repr` (the `shape` string,
whose digits do matter, is modelled separately by `fmt2` below). -/
inductive PyVal where
  | str (v : ℝ)
  | float (v : ℝ)
  | int (n : ℤ)

/-- Whether a descriptor value is a Python float (as opposed to a
`repr`-serialized string or an int). -/
def PyVal.isFloat : PyVal → Bool
  | .float _ => true
  | _ => false

/-- The number carried by a descriptor value: for a `repr` string, the number
it prints. -/
def PyVal.num : PyVal → ℝ
  | .str v => v
  | .float v => v
  | .int n => (n : ℝ)

/-- The `additional_params` dictionary of `NetParams`: a Python dict mapping
parameter names to user-supplied numbers (the tutorial supplies
`{"radius": 40, "num_lanes": 1, "speed_limit": 30}`). -/
abbrev AdditionalParams := List (String × ℚ)

/-- Errors arising from the tutorial code and from the specification's error
taxonomy.  `keyError k` models the Python `KeyError` raised by the dict
lookup `additional_params[k]` when `k` is absent.  `configError` models the
specification's `ConfigurationError` (§7); the tutorial code never raises
it. -/
inductive PyErr where
  | keyError (key : String)
  | configError
  deriving DecidableEq

/-- The Python dict read `net_params.additional_params[k]`: returns the
stored value, or raises `KeyError k` when the key is absent. -/
def getParam (ps : AdditionalParams) (k : String) : Except PyErr ℚ :=
  match ps.lookup k with
  | some v => .ok v
  | none => .error (.keyError k)

/-- A node descriptor as built by `specify_nodes`:
`{"id": ..., "x": repr(...), "y": repr(...)}`. -/
structure Node where
  id : String
  x : PyVal
  y : PyVal

/-- An edge descriptor as built by `specify_edges`.  The dict keys are
`id`, `numLanes`, `speed`, `from`, `to`, `length`, `shape`; `from`/`to` are
rendered here as `fromId`/`toId` because `from` is a Lean keyword. -/
structure Edge where
  id : String
  numLanes : PyVal
  speed : PyVal
  fromId : String
  toId : String
  length : PyVal
  shape : String

/-- The edge length computed by `specify_edges`: `edgelen = r * pi / 2`. -/
noncomputable def edgelen (r : ℝ) : ℝ := r * π / 2

/-- One decimal digit as a character. -/
def digitChar (d : ℕ) : Char := Char.ofNat (48 + d)

/-- The decimal digits of a natural number, most significant first. -/
def natDigits (n : ℕ) : List Char :=
  if h : n < 10 then [digitChar n]
  else natDigits (n / 10) ++ [digitChar (n % 10)]
decreasing_by
  exact Nat.div_lt_self (by omega) (by norm_num)

/-- Two-digit zero-padded rendering of `m < 100`. -/
def pad2 (m : ℕ) : List Char := [digitChar (m / 10), digitChar (m % 10)]

/-- Fixed-point rendering of `n` hundredths with exactly two digits after the
decimal point, e.g. `fmtCenti (-1257) = "-12.57"`. -/
def fmtCenti (n : ℤ) : String :=
  (if n < 0 then "-" else "") ++ String.mk (natDigits (n.natAbs / 100))
    ++ "." ++ String.mk (pad2 (n.natAbs % 100))

/-- The Python format `"%.2f" % x`: the number is rounded to the nearest
hundredth and rendered with exactly two decimal places. -/
noncomputable def fmt2 (x : ℝ) : String := fmtCenti (round (100 * x))

/-- The real value printed by `"%.2f" % x`: `x` rounded to a hundredth. -/
noncomputable def round2 (x : ℝ) : ℝ := (round (100 * x) : ℤ) / 100

/-- The parameter interval of the arc of edge `i` of the ring, as passed to
`numpy.linspace` by `specify_edges`: edge0 spans `[-pi/2, 0]`, edge1
`[0, pi/2]`, edge2 `[pi/2, pi]`, edge3 `[pi, 3*pi/2]`. -/
noncomputable def arcRange : Fin 4 → ℝ × ℝ
  | 0 => (-(π / 2), 0)
  | 1 => (0, π / 2)
  | 2 => (π / 2, π)
  | 3 => (π, 3 * π / 2)

/-- The 40 sample points `(r*cos(t), r*sin(t))` for `t` in
`linspace(a, b, 40)`, i.e. `t_k = a + k*(b-a)/39` for `k = 0, ..., 39`,
used by `specify_edges` to build the `shape` of edge `i`. -/
noncomputable def shapePoints (r : ℝ) (i : Fin 4) : List (ℝ × ℝ) :=
  (List.range 40).map fun k : ℕ =>
    let t := (arcRange i).1 + (k : ℝ) * (((arcRange i).2 - (arcRange i).1) / 39)
    (r * Real.cos t, r * Real.sin t)

/-- The `shape` string of edge `i`:
`" ".join(["%.2f,%.2f" % (r*cos(t), r*sin(t)) for t in linspace(a, b, 40)])`. -/
noncomputable def shapeStr (r : ℝ) (i : Fin 4) : String :=
  " ".intercalate ((shapePoints r i).map fun p => fmt2 p.1 ++ "," ++ fmt2 p.2)

/-- The node list built by `specify_nodes` once the radius `r` has been read
from the parameter dict:
bottom `(0, -r)`, right `(r, 0)`, top `(0, r)`, left `(-r, 0)`, with each
coordinate serialized through `repr`. -/
noncomputable def ringNodes (r : ℝ) : List Node :=
  [⟨"bottom", .str 0, .str (-r)⟩,
   ⟨"right", .str r, .str 0⟩,
   ⟨"top", .str 0, .str r⟩,
   ⟨"left", .str (-r), .str 0⟩]

/-- `myGenerator.specify_nodes`: reads `"radius"` from `additional_params`
(raising `KeyError` when absent, as the Python dict access does) and returns
the four ring nodes. -/
noncomputable def specify_nodes (ps : AdditionalParams) : Except PyErr (List Node) := do
  let r ← getParam ps "radius"
  return ringNodes (r : ℝ)

/-- The edge list built by `specify_edges` once radius `r`, lane count `n`
and speed limit `s` have been read from the parameter dict: four
counter-clockwise quarter-circle arcs, with `length`, `numLanes` and `speed`
serialized through `repr` and `shape` the `"%.2f"`-formatted arc samples. -/
noncomputable def ringEdges (r n s : ℝ) : List Edge :=
  [⟨"edge0", .str n, .str s, "bottom", "right", .str (edgelen r), shapeStr r 0⟩,
   ⟨"edge1", .str n, .str s, "right", "top", .str (edgelen r), shapeStr r 1⟩,
   ⟨"edge2", .str n, .str s, "top", "left", .str (edgelen r), shapeStr r 2⟩,
   ⟨"edge3", .str n, .str s, "left", "bottom", .str (edgelen r), shapeStr r 3⟩]

/-- `myGenerator.specify_edges`: reads `"radius"`, `"num_lanes"` and
`"speed_limit"` from `additional_params` in that order (raising `KeyError`
for the first absent key, as the Python dict accesses do) and returns the
four ring edges. -/
noncomputable def specify_edges (ps : AdditionalParams) : Except PyErr (List Edge) := do
  let r ← getParam ps "radius"
  let lanes ← getParam ps "num_lanes"
  let speed_limit ← getParam ps "speed_limit"
  return ringEdges (r : ℝ) (lanes : ℝ) (speed_limit : ℝ)

/-- `myGenerator.specify_routes`: the route dict of the ring.  Each starting
edge is mapped to the ordered edge sequence a vehicle entering there
traverses. -/
def routes : List (String × List String) :=
  [("edge0", ["edge0", "edge1", "edge2", "edge3"]),
   ("edge1", ["edge1", "edge2", "edge3", "edge0"]),
   ("edge2", ["edge2", "edge3", "edge0", "edge1"]),
   ("edge3", ["edge3", "edge0", "edge1", "edge2"])]

/-- `myScenario.specify_edge_starts`: the global 1-D offset of each edge,
`[("edge0", 0), ("edge1", r*1/2*pi), ("edge2", r*pi), ("edge3", r*3/2*pi)]`. -/
noncomputable def edgestarts (r : ℝ) : List (String × ℝ) :=
  [("edge0", 0), ("edge1", r * (1 / 2) * π), ("edge2", r * π), ("edge3", r * (3 / 2) * π)]

/-- The offset of the `i`-th entry of `specify_edge_starts`. -/
noncomputable def offsetAt (r : ℝ) (i : Fin 4) : ℝ :=
  (((edgestarts r).map Prod.snd).getD i 0)

/-- The edge id of the `i`-th entry of `specify_edge_starts`. -/
def edgeIdAt (i : Fin 4) : String :=
  ["edge0", "edge1", "edge2", "edge3"].getD i ""

/-- The length of the edge named `eid` according to `specify_edges` (edge
lengths do not depend on the lane-count and speed-limit parameters, which
only affect the `numLanes`/`speed` attributes; they are passed as `0`
here). -/
noncomputable def lenOf (r : ℝ) (eid : String) : ℝ :=
  ((((ringEdges r 0 0).find? (fun e => e.id == eid)).map
    (fun e => e.length.num)).getD 0)

/-- The total network length: the sum of the edge lengths along one full
cycle of the canonical route (the route starting at `"edge0"`). -/
noncomputable def totalLen (r : ℝ) : ℝ :=
  ((((routes.lookup "edge0").getD []).map (lenOf r)).sum)

/-- Modelled from the spec: reduction of a global position modulo the total
network length `T` of a closed network, guaranteeing a result in `[0, T)`.
The position-resolution code (`PositionResolver`, Flow's base `Scenario`)
is not part of the tutorial source. -/
noncomputable def wrapPos (T p : ℝ) : ℝ := p - T * ⌊p / T⌋

/-- Modelled from the spec: `next_edge(current_edge_id)` returns the edge
following `current_edge_id` in its associated route, wrapping to the first
edge of the route when the end is reached (closed networks); `none` models
the no-associated-route case.  The route table wrapper (`RouteTable`,
Flow's base classes) is not part of the tutorial source; the route data it
wraps is the tutorial's `specify_routes` output. -/
def next_edge (cur : String) : Option String :=
  match routes.lookup cur with
  | none => none
  | some rt =>
    match rt.findIdx? (· == cur) with
    | none => none
    | some i => some (rt.getD ((i + 1) % rt.length) "")

/-- The number of edges of the route associated with `eid`. -/
def routeLenOf (eid : String) : ℕ := ((routes.lookup eid).getD []).length

/-- Consecutive pairs of a route read as a closed cycle: each element paired
with its successor, the last one wrapping around to the first. -/
def cyclicPairs (l : List String) : List (String × String) := l.zip (l.rotate 1)

/-- Modelled from the spec: the edge-start offset of `eid` according to the
mapping declared by `specify_edge_starts` (the mapping construction lives in
Flow's base `Scenario`, not in the tutorial source). -/
noncomputable def offsetOf (r : ℝ) (eid : String) : ℝ :=
  (((edgestarts r).lookup eid).getD 0)

/-- Modelled from the spec:
`global_position(edge_id, local_distance) = offset(edge_id) + local_distance`,
taken modulo the total network length for the closed ring.  The resolver
lives in Flow's base classes, not in the tutorial source. -/
noncomputable def global_position (r : ℝ) (eid : String) (d : ℝ) : ℝ :=
  wrapPos (totalLen r) (offsetOf r eid + d)

/-- Modelled from the spec: the sorted-by-offset index of the position
resolver for the ring: one entry `(id, offset, length)` per edge, with
offsets from `specify_edge_starts` and lengths from `specify_edges`. -/
noncomputable def ringStarts (r : ℝ) : List (String × ℝ × ℝ) :=
  (edgestarts r).map fun s => (s.1, s.2, lenOf r s.1)

/-- Modelled from the spec: `locate(global_position)` reduces the position
modulo the total network length, finds the entry whose half-open interval
`[offset, offset + length)` contains it, and returns that edge's id together
with `local_distance = position - offset`.  The resolver lives in Flow's
base classes, not in the tutorial source. -/
noncomputable def locate (r p : ℝ) : Option (String × ℝ) :=
  ((ringStarts r).find? fun s =>
      decide (s.2.1 ≤ wrapPos (totalLen r) p ∧
        wrapPos (totalLen r) p < s.2.1 + s.2.2)).map
    fun s => (s.1, wrapPos (totalLen r) p - s.2.1)

/-- The `from` node of the edge named `eid` in an edge list. -/
def edgeFromOf (es : List Edge) (eid : String) : Option String :=
  (es.find? (fun e => e.id == eid)).map Edge.fromId

/-- The `to` node of the edge named `eid` in an edge list. -/
def edgeToOf (es : List Edge) (eid : String) : Option String :=
  (es.find? (fun e => e.id == eid)).map Edge.toId

/-- The `ADDITIONAL_NET_PARAMS` dict of the tutorial:
`{"radius": 40, "num_lanes": 1, "speed_limit": 30}`. -/
def ADDITIONAL_NET_PARAMS : AdditionalParams :=
  [("radius", 40), ("num_lanes", 1), ("speed_limit", 30)]

/-- The coordinates of the node named `nid` in the `specify_nodes` output
(the numbers whose `repr` strings are stored in the descriptor). -/
noncomputable def nodePos (r : ℝ) (nid : String) : ℝ × ℝ :=
  match (ringNodes r).find? (fun nd => nd.id == nid) with
  | some nd => (nd.x.num, nd.y.num)
  | none => (0, 0)

/-- The first sample point of the shape polyline of edge `i`. -/
noncomputable def firstShapePoint (r : ℝ) (i : Fin 4) : ℝ × ℝ :=
  (shapePoints r i).headD (0, 0)

/-- The last sample point of the shape polyline of edge `i`. -/
noncomputable def lastShapePoint (r : ℝ) (i : Fin 4) : ℝ × ℝ :=
  (shapePoints r i).getLastD (0, 0)

/-- The `i`-th edge descriptor of `specify_edges`. -/
noncomputable def edgeAt (r n s : ℝ) (i : Fin 4) : Edge :=
  (ringEdges r n s).getD i ⟨"", .str 0, .str 0, "", "", .str 0, ""⟩

/-- The shape-polyline endpoints of every edge agree with the coordinates of
its `from`/`to` nodes within `1e-2`: the printed first (resp. last) point of
the `shape` of edge `i` is within `1e-2` of the `from` (resp. `to`) node's
coordinates. -/
def ShapeEndpointsOK (r n s : ℝ) : Prop :=
  ∀ i : Fin 4,
    (edgeAt r n s i).shape = shapeStr r i ∧
    |round2 (firstShapePoint r i).1 - (nodePos r (edgeAt r n s i).fromId).1| ≤ 1e-2 ∧
    |round2 (firstShapePoint r i).2 - (nodePos r (edgeAt r n s i).fromId).2| ≤ 1e-2 ∧
    |round2 (lastShapePoint r i).1 - (nodePos r (edgeAt r n s i).toId).1| ≤ 1e-2 ∧
    |round2 (lastShapePoint r i).2 - (nodePos r (edgeAt r n s i).toId).2| ≤ 1e-2

/-- A string consisting of an optional minus sign, a nonempty run of digits,
a decimal point, and exactly two digits. -/
def TwoDecimal (t : String) : Prop :=
  ∃ (sign : String) (intDigits : List Char) (d1 d2 : Char),
    (sign = "" ∨ sign = "-") ∧ intDigits ≠ [] ∧
      (∀ c ∈ intDigits, c.isDigit = true) ∧ d1.isDigit = true ∧
      d2.isDigit = true ∧
      t = sign ++ String.mk intDigits ++ "." ++ String.mk [d1, d2]

/-- The typing discipline of the amended C9: every node coordinate and every
numeric edge attribute is stored as a `repr` string; the underlying numbers
satisfy the data model's bounds when the supplied parameters do. -/
def DescriptorValuesOK (r n s : ℝ) : Prop :=
  (∀ nd ∈ ringNodes r, (∃ v, nd.x = .str v) ∧ (∃ v, nd.y = .str v)) ∧
    (∀ e ∈ ringEdges r n s,
      e.length = .str (edgelen r) ∧ 0 < edgelen r ∧
        e.numLanes = .str n ∧ 1 ≤ n ∧ e.speed = .str s ∧ 0 < s)

/-- Strict monotonicity of the edge-start offsets along the canonical
route. -/
def EdgeStartsMono (r : ℝ) : Prop :=
  offsetAt r 0 < offsetAt r 1 ∧ offsetAt r 1 < offsetAt r 2 ∧
    offsetAt r 2 < offsetAt r 3

/-- Consistency of the edge-start offsets with the edge lengths of
`specify_edges`: each offset is the previous offset plus the previous edge's
length, the last one wrapping to the first modulo the total network
length. -/
def EdgeStartsSpaced (r : ℝ) : Prop :=
  offsetAt r 1 = offsetAt r 0 + lenOf r (edgeIdAt 0) ∧
    offsetAt r 2 = offsetAt r 1 + lenOf r (edgeIdAt 1) ∧
    offsetAt r 3 = offsetAt r 2 + lenOf r (edgeIdAt 2) ∧
    wrapPos (totalLen r) (offsetAt r 3 + lenOf r (edgeIdAt 3)) = offsetAt r 0

/-- The spec's numeric example at radius `40`: offsets `0`, `62.83`,
`125.66`, `188.50` and total length `≈ 251.33`, all within `1e-2`. -/
def EdgeStartsNumeric40 : Prop :=
  offsetAt 40 0 = 0 ∧ |offsetAt 40 1 - 62.83| < 1e-2 ∧
    |offsetAt 40 2 - 125.66| < 1e-2 ∧ |offsetAt 40 3 - 188.50| < 1e-2 ∧
    |totalLen 40 - 251.33| < 1e-2

end Flow

namespace Flow

lemma totalLen_eq (r : ℝ) : totalLen r = 2 * π * r := by
  show (((["edge0", "edge1", "edge2", "edge3"]).map (lenOf r)).sum) = 2 * π * r
  have h0 : lenOf r "edge0" = edgelen r := rfl
  have h1 : lenOf r "edge1" = edgelen r := rfl
  have h2 : lenOf r "edge2" = edgelen r := rfl
  have h3 : lenOf r "edge3" = edgelen r := rfl
  simp only [List.map_cons, List.map_nil, List.sum_cons, List.sum_nil, h0, h1, h2, h3]
  simp only [edgelen]
  ring

lemma wrapPos_self (T : ℝ) (hT : T ≠ 0) : wrapPos T T = 0 := by
  unfold wrapPos
  rw [div_self hT]
  norm_num

lemma wrapPos_eq_self {T p : ℝ} (hT : 0 < T) (h0 : 0 ≤ p) (h1 : p < T) :
    wrapPos T p = p := by
  unfold wrapPos
  have hfl : ⌊p / T⌋ = 0 :=
    Int.floor_eq_zero_iff.mpr ⟨div_nonneg h0 hT.le, (div_lt_one hT).mpr h1⟩
  rw [hfl]
  push_cast
  ring

/-- Claim C1: for every radius `r > 0`, the edge-start offsets returned by
`specify_edge_starts` are strictly monotonically increasing along the
canonical route and satisfy `offset(next_edge) = offset(edge) +
length(edge)` (modulo the total network length for the wrap from the last
edge back to the first), with each edge's length taken from
`specify_edges`; at `radius = 40` the offsets are `edge0@0`, `edge1@62.83`,
`edge2@125.66`, `edge3@188.50` and `total_length ≈ 251.33`. -/
theorem edge_start_offsets (r : ℝ) (h : 0 < r) :
    EdgeStartsMono r ∧ EdgeStartsSpaced r ∧ EdgeStartsNumeric40 := by
  have e0 : offsetAt r 0 = 0 := rfl
  have e1 : offsetAt r 1 = r * (1 / 2) * π := rfl
  have e2 : offsetAt r 2 = r * π := rfl
  have e3 : offsetAt r 3 = r * (3 / 2) * π := rfl
  have l0 : lenOf r (edgeIdAt 0) = edgelen r := rfl
  have l1 : lenOf r (edgeIdAt 1) = edgelen r := rfl
  have l2 : lenOf r (edgeIdAt 2) = edgelen r := rfl
  have l3 : lenOf r (edgeIdAt 3) = edgelen r := rfl
  have hπ := Real.pi_pos
  refine ⟨⟨?_, ?_, ?_⟩, ⟨?_, ?_, ?_, ?_⟩, ?_⟩
  · rw [e0, e1]; positivity
  · rw [e1, e2]; nlinarith
  · rw [e2, e3]; nlinarith
  · rw [e0, e1, l0, edgelen]; ring
  · rw [e1, e2, l1, edgelen]; ring
  · rw [e2, e3, l2, edgelen]; ring
  · rw [e0, e3, l3, edgelen]
    have hsum : r * (3 / 2) * π + r * π / 2 = totalLen r := by
      rw [totalLen_eq]; ring
    rw [hsum]
    exact wrapPos_self _ (by rw [totalLen_eq]; positivity)
  · have f1 : offsetAt 40 1 = 40 * (1 / 2) * π := rfl
    have f2 : offsetAt 40 2 = 40 * π := rfl
    have f3 : offsetAt 40 3 = 40 * (3 / 2) * π := rfl
    have lb := Real.pi_gt_d6
    have ub := Real.pi_lt_d6
    refine ⟨rfl, ?_, ?_, ?_, ?_⟩
    · rw [f1, abs_lt]; constructor <;> nlinarith
    · rw [f2, abs_lt]; constructor <;> nlinarith
    · rw [f3, abs_lt]; constructor <;> nlinarith
    · rw [totalLen_eq, abs_lt]; constructor <;> nlinarith

/-- Witness for C1 at radius `40`. -/
theorem edge_start_offsets_witness :
    (0 : ℝ) < 40 ∧ (EdgeStartsMono 40 ∧ EdgeStartsSpaced 40 ∧ EdgeStartsNumeric40) :=
  ⟨by norm_num, edge_start_offsets 40 (by norm_num)⟩

/-- Claim C4: for every starting edge of the closed ring, `next_edge` (the
successor in that edge's route, wrapping from the last edge of the route
back to the first) applied `len(route)` times returns the starting edge:
every route is a closed cycle. -/
theorem next_edge_cycles :
    ∀ i : Fin 4,
      (fun o => o.bind next_edge)^[routeLenOf (edgeIdAt i)] (some (edgeIdAt i)) =
        some (edgeIdAt i) := by
  decide

/-- Claim C5: every route returned by `specify_routes` begins with its
starting (key) edge, iterating `next_edge` from the key eventually (within
`len(route)` steps, in a positive number of steps) returns to the key, and
the set of edge ids appearing across all routes equals the full set of edge
ids returned by `specify_edges`. -/
theorem routes_cover (r n s : ℝ) :
    (∀ kv ∈ routes, kv.2.head? = some kv.1) ∧
      (∀ kv ∈ routes, ∃ m ∈ List.range (kv.2.length + 1), 0 < m ∧
        (fun o => o.bind next_edge)^[m] (some kv.1) = some kv.1) ∧
      ((ringEdges r n s).map Edge.id = ["edge0", "edge1", "edge2", "edge3"] ∧
        ((routes.map Prod.snd).flatten).toFinset =
          (["edge0", "edge1", "edge2", "edge3"] : List String).toFinset) :=
  ⟨by decide, by decide, rfl, by decide⟩

/-- Claim C10: for every route returned by `specify_routes` and every
consecutive pair of edges in it, including the wrap from the last edge back
to the first, the `to` node of the earlier edge exists and equals the
`from` node of the later edge in the descriptors returned by
`specify_edges`: every route is a head-to-tail connected cycle. -/
theorem routes_head_to_tail (r n s : ℝ) :
    ∀ kv ∈ routes, ∀ p ∈ cyclicPairs kv.2,
      edgeToOf (ringEdges r n s) p.1 = edgeFromOf (ringEdges r n s) p.2 ∧
        (edgeToOf (ringEdges r n s) p.1).isSome = true := by
  intro kv hkv p hp
  fin_cases hkv <;> fin_cases hp <;> exact ⟨rfl, rfl⟩

/-- Witness for C10: the first consecutive pair of the canonical route at
radius `40`, lane count `1`, speed limit `30`. -/
theorem routes_head_to_tail_witness :
    ("edge0", ["edge0", "edge1", "edge2", "edge3"]) ∈ routes ∧
      ("edge0", "edge1") ∈ cyclicPairs ["edge0", "edge1", "edge2", "edge3"] ∧
      (edgeToOf (ringEdges 40 1 30) "edge0" = edgeFromOf (ringEdges 40 1 30) "edge1" ∧
        (edgeToOf (ringEdges 40 1 30) "edge0").isSome = true) := by
  have h1 : ("edge0", ["edge0", "edge1", "edge2", "edge3"]) ∈ routes := by decide
  have h2 : ("edge0", "edge1") ∈ cyclicPairs ["edge0", "edge1", "edge2", "edge3"] := by
    decide
  exact ⟨h1, h2, routes_head_to_tail 40 1 30 _ h1 _ h2⟩

/-- Claim C2: for every radius `r > 0`, each of the four edges returned by
`specify_edges` has length `r * pi / 2`, and the total network length (the
sum of the edge lengths along one full cycle of the canonical route) equals
`2 * pi * r` (exactly, in real arithmetic). -/
theorem edge_lengths_and_total (r n s : ℝ) (h : 0 < r) :
    (∀ e ∈ ringEdges r n s, e.length.num = r * π / 2) ∧
      totalLen r = 2 * π * r := by
  constructor
  · intro e he
    simp only [ringEdges, List.mem_cons, List.not_mem_nil, or_false] at he
    rcases he with rfl | rfl | rfl | rfl <;> simp [PyVal.num, edgelen]
  · show ((((routes.lookup "edge0").getD []).map (lenOf r)).sum) = 2 * π * r
    have h0 : lenOf r "edge0" = edgelen r := rfl
    have h1 : lenOf r "edge1" = edgelen r := rfl
    have h2 : lenOf r "edge2" = edgelen r := rfl
    have h3 : lenOf r "edge3" = edgelen r := rfl
    show (((["edge0", "edge1", "edge2", "edge3"]).map (lenOf r)).sum) = 2 * π * r
    simp only [List.map_cons, List.map_nil, List.sum_cons, List.sum_nil, h0, h1, h2, h3]
    simp only [edgelen]
    ring

/-- Claim C3: round-trip law.  For every radius `r > 0`, every edge of the
ring and every local distance `d` with `0 ≤ d < length(edge)` (length taken
from `specify_edges`), `locate (global_position edge d)` returns exactly
`(edge, d)`; in particular at `d = 0` the global position equals the edge's
offset and belongs to that edge (offsets define half-open intervals). -/
theorem locate_global_position_roundtrip (r d : ℝ) (i : Fin 4) (hr : 0 < r)
    (h0 : 0 ≤ d) (h1 : d < lenOf r (edgeIdAt i)) :
    locate r (global_position r (edgeIdAt i) d) = some (edgeIdAt i, d) := by
  have hπ := Real.pi_pos
  have hT : 0 < totalLen r := by rw [totalLen_eq]; positivity
  have hrs : ringStarts r =
      [("edge0", 0, edgelen r), ("edge1", r * (1 / 2) * π, edgelen r),
       ("edge2", r * π, edgelen r), ("edge3", r * (3 / 2) * π, edgelen r)] := rfl
  fin_cases i
  · have h1' : d < r * π / 2 := h1
    have hgp : global_position r "edge0" d = d := by
      show wrapPos (totalLen r) (offsetOf r "edge0" + d) = d
      rw [show offsetOf r "edge0" = 0 from rfl, zero_add]
      exact wrapPos_eq_self hT h0 (by rw [totalLen_eq]; nlinarith)
    show locate r (global_position r "edge0" d) = some ("edge0", d)
    rw [hgp]
    have hq : wrapPos (totalLen r) d = d :=
      wrapPos_eq_self hT h0 (by rw [totalLen_eq]; nlinarith)
    simp only [locate, hq, hrs]
    rw [List.find?_cons_of_pos _ (by
      simp only [decide_eq_true_eq, edgelen]
      exact ⟨h0, by linarith⟩)]
    simp only [Option.map_some', Option.some.injEq, Prod.mk.injEq]
    exact ⟨trivial, by ring⟩
  · have h1' : d < r * π / 2 := h1
    have hgp : global_position r "edge1" d = r * (1 / 2) * π + d := by
      show wrapPos (totalLen r) (offsetOf r "edge1" + d) = r * (1 / 2) * π + d
      rw [show offsetOf r "edge1" = r * (1 / 2) * π from rfl]
      exact wrapPos_eq_self hT (by nlinarith) (by rw [totalLen_eq]; nlinarith)
    show locate r (global_position r "edge1" d) = some ("edge1", d)
    rw [hgp]
    have hq : wrapPos (totalLen r) (r * (1 / 2) * π + d) = r * (1 / 2) * π + d :=
      wrapPos_eq_self hT (by nlinarith) (by rw [totalLen_eq]; nlinarith)
    simp only [locate, hq, hrs]
    rw [List.find?_cons_of_neg _ (by
      simp only [decide_eq_true_eq, edgelen]
      rintro ⟨-, hb⟩
      nlinarith)]
    rw [List.find?_cons_of_pos _ (by
      simp only [decide_eq_true_eq, edgelen]
      exact ⟨by nlinarith, by nlinarith⟩)]
    simp only [Option.map_some', Option.some.injEq, Prod.mk.injEq]
    exact ⟨trivial, by ring⟩
  · have h1' : d < r * π / 2 := h1
    have hgp : global_position r "edge2" d = r * π + d := by
      show wrapPos (totalLen r) (offsetOf r "edge2" + d) = r * π + d
      rw [show offsetOf r "edge2" = r * π from rfl]
      exact wrapPos_eq_self hT (by nlinarith) (by rw [totalLen_eq]; nlinarith)
    show locate r (global_position r "edge2" d) = some ("edge2", d)
    rw [hgp]
    have hq : wrapPos (totalLen r) (r * π + d) = r * π + d :=
      wrapPos_eq_self hT (by nlinarith) (by rw [totalLen_eq]; nlinarith)
    simp only [locate, hq, hrs]
    rw [List.find?_cons_of_neg _ (by
      simp only [decide_eq_true_eq, edgelen]
      rintro ⟨-, hb⟩
      nlinarith)]
    rw [List.find?_cons_of_neg _ (by
      simp only [decide_eq_true_eq, edgelen]
      rintro ⟨-, hb⟩
      nlinarith)]
    rw [List.find?_cons_of_pos _ (by
      simp only [decide_eq_true_eq, edgelen]
      exact ⟨by nlinarith, by nlinarith⟩)]
    simp only [Option.map_some', Option.some.injEq, Prod.mk.injEq]
    exact ⟨trivial, by ring⟩
  · have h1' : d < r * π / 2 := h1
    have hgp : global_position r "edge3" d = r * (3 / 2) * π + d := by
      show wrapPos (totalLen r) (offsetOf r "edge3" + d) = r * (3 / 2) * π + d
      rw [show offsetOf r "edge3" = r * (3 / 2) * π from rfl]
      exact wrapPos_eq_self hT (by nlinarith) (by rw [totalLen_eq]; nlinarith)
    show locate r (global_position r "edge3" d) = some ("edge3", d)
    rw [hgp]
    have hq : wrapPos (totalLen r) (r * (3 / 2) * π + d) = r * (3 / 2) * π + d :=
      wrapPos_eq_self hT (by nlinarith) (by rw [totalLen_eq]; nlinarith)
    simp only [locate, hq, hrs]
    rw [List.find?_cons_of_neg _ (by
      simp only [decide_eq_true_eq, edgelen]
      rintro ⟨-, hb⟩
      nlinarith)]
    rw [List.find?_cons_of_neg _ (by
      simp only [decide_eq_true_eq, edgelen]
      rintro ⟨-, hb⟩
      nlinarith)]
    rw [List.find?_cons_of_neg _ (by
      simp only [decide_eq_true_eq, edgelen]
      rintro ⟨-, hb⟩
      nlinarith)]
    rw [List.find?_cons_of_pos _ (by
      simp only [decide_eq_true_eq, edgelen]
      exact ⟨by nlinarith, by nlinarith⟩)]
    simp only [Option.map_some', Option.some.injEq, Prod.mk.injEq]
    exact ⟨trivial, by ring⟩

/-- Witness for C3: radius `40`, edge `edge1`, local distance `5`. -/
theorem locate_global_position_roundtrip_witness :
    (0 : ℝ) < 40 ∧ (0 : ℝ) ≤ 5 ∧ (5 : ℝ) < lenOf 40 (edgeIdAt 1) ∧
      locate 40 (global_position 40 (edgeIdAt 1) 5) = some (edgeIdAt 1, 5) := by
  have hlen : lenOf 40 (edgeIdAt 1) = 40 * π / 2 := rfl
  have hπ := Real.pi_gt_d6
  have hb : (5 : ℝ) < lenOf 40 (edgeIdAt 1) := by rw [hlen]; nlinarith
  exact ⟨by norm_num, by norm_num, hb,
    locate_global_position_roundtrip 40 5 1 (by norm_num) (by norm_num) hb⟩

/-- Witness for C2 at radius `40` (lane count `1`, speed limit `30`). -/
theorem edge_lengths_and_total_witness :
    (0 : ℝ) < 40 ∧
      ((∀ e ∈ ringEdges 40 1 30, e.length.num = 40 * π / 2) ∧
        totalLen 40 = 2 * π * 40) :=
  ⟨by norm_num, edge_lengths_and_total 40 1 30 (by norm_num)⟩

end Flow

namespace Flow

lemma abs_round2_sub_le (x : ℝ) : |round2 x - x| ≤ 1e-2 := by
  have h := abs_sub_round (100 * x)
  have h2 : round2 x - x = -((100 * x - ((round (100 * x) : ℤ) : ℝ)) / 100) := by
    unfold round2; ring
  rw [h2, abs_neg, abs_div, abs_of_pos (by norm_num : (0:ℝ) < 100)]
  linarith

lemma round2_close {x y : ℝ} (h : x = y) : |round2 x - y| ≤ 1e-2 := by
  rw [← h]; exact abs_round2_sub_le x

lemma firstShapePoint_eq (r : ℝ) (i : Fin 4) :
    firstShapePoint r i =
      (r * Real.cos (arcRange i).1, r * Real.sin (arcRange i).1) := by
  have h : firstShapePoint r i =
      (r * Real.cos ((arcRange i).1 +
          ((0:ℕ) : ℝ) * (((arcRange i).2 - (arcRange i).1) / 39)),
        r * Real.sin ((arcRange i).1 +
          ((0:ℕ) : ℝ) * (((arcRange i).2 - (arcRange i).1) / 39))) := rfl
  rw [h]
  norm_num

lemma lastShapePoint_eq (r : ℝ) (i : Fin 4) :
    lastShapePoint r i =
      (r * Real.cos (arcRange i).2, r * Real.sin (arcRange i).2) := by
  have h : lastShapePoint r i =
      (r * Real.cos ((arcRange i).1 +
          ((39:ℕ) : ℝ) * (((arcRange i).2 - (arcRange i).1) / 39)),
        r * Real.sin ((arcRange i).1 +
          ((39:ℕ) : ℝ) * (((arcRange i).2 - (arcRange i).1) / 39))) := rfl
  have h39 : (arcRange i).1 +
      ((39:ℕ) : ℝ) * (((arcRange i).2 - (arcRange i).1) / 39) = (arcRange i).2 := by
    push_cast
    ring
  rw [h, h39]

lemma edgeAt_shape (r n s : ℝ) (i : Fin 4) :
    (edgeAt r n s i).shape = shapeStr r i := by
  fin_cases i
  all_goals unfold edgeAt ringEdges
  all_goals simp only [Fin.isValue]
  all_goals norm_num [List.getD]
  all_goals exact congrArg (shapeStr r) (by decide)

/-- Claim C6: for every radius `r > 0` and every edge produced by
`specify_edges`, the first and last points of the edge's shape polyline (as
printed to the `shape` string, i.e. rounded to a hundredth) coincide within
`1e-2` with the coordinates of the edge's `from` and `to` nodes as returned
by `specify_nodes`. -/
theorem shape_endpoints_match (r n s : ℝ) (hr : 0 < r) : ShapeEndpointsOK r n s := by
  intro i
  fin_cases i
  · rw [firstShapePoint_eq, lastShapePoint_eq]
    refine ⟨edgeAt_shape r n s _, round2_close ?_, round2_close ?_, round2_close ?_,
      round2_close ?_⟩
    · show r * Real.cos (-(π / 2)) = 0
      simp
    · show r * Real.sin (-(π / 2)) = -r
      simp
    · show r * Real.cos 0 = r
      simp
    · show r * Real.sin 0 = 0
      simp
  · rw [firstShapePoint_eq, lastShapePoint_eq]
    refine ⟨edgeAt_shape r n s _, round2_close ?_, round2_close ?_, round2_close ?_,
      round2_close ?_⟩
    · show r * Real.cos 0 = r
      simp
    · show r * Real.sin 0 = 0
      simp
    · show r * Real.cos (π / 2) = 0
      simp
    · show r * Real.sin (π / 2) = r
      simp
  · rw [firstShapePoint_eq, lastShapePoint_eq]
    refine ⟨edgeAt_shape r n s _, round2_close ?_, round2_close ?_, round2_close ?_,
      round2_close ?_⟩
    · show r * Real.cos (π / 2) = 0
      simp
    · show r * Real.sin (π / 2) = r
      simp
    · show r * Real.cos π = -r
      simp
    · show r * Real.sin π = 0
      simp
  · rw [firstShapePoint_eq, lastShapePoint_eq]
    refine ⟨edgeAt_shape r n s _, round2_close ?_, round2_close ?_, round2_close ?_,
      round2_close ?_⟩
    · show r * Real.cos π = -r
      simp
    · show r * Real.sin π = 0
      simp
    · show r * Real.cos (3 * π / 2) = 0
      rw [show (3:ℝ) * π / 2 = π + π / 2 by ring]
      simp [Real.cos_add]
    · show r * Real.sin (3 * π / 2) = -r
      rw [show (3:ℝ) * π / 2 = π + π / 2 by ring]
      simp [Real.sin_add]

/-- Witness for C6 at radius `40` (lane count `1`, speed limit `30`). -/
theorem shape_endpoints_match_witness :
    (0:ℝ) < 40 ∧ ShapeEndpointsOK 40 1 30 :=
  ⟨by norm_num, shape_endpoints_match 40 1 30 (by norm_num)⟩

lemma digitChar_isDigit {d : ℕ} (hd : d < 10) : (digitChar d).isDigit = true := by
  interval_cases d <;> decide

lemma natDigits_ne_nil (n : ℕ) : natDigits n ≠ [] := by
  rw [natDigits]
  split
  · simp
  · simp

lemma natDigits_digits (n : ℕ) : ∀ c ∈ natDigits n, c.isDigit = true := by
  induction n using Nat.strong_induction_on with
  | _ n ih =>
    intro c hc
    rw [natDigits] at hc
    split at hc
    · rename_i h
      simp only [List.mem_singleton] at hc
      subst hc
      exact digitChar_isDigit h
    · rename_i h
      rcases List.mem_append.mp hc with h1 | h2
      · exact ih (n / 10) (Nat.div_lt_self (by omega) (by norm_num)) c h1
      · simp only [List.mem_singleton] at h2
        subst h2
        exact digitChar_isDigit (Nat.mod_lt _ (by norm_num))

lemma fmtCenti_twoDecimal (m : ℤ) : TwoDecimal (fmtCenti m) := by
  refine ⟨if m < 0 then "-" else "", natDigits (m.natAbs / 100),
    digitChar (m.natAbs % 100 / 10), digitChar (m.natAbs % 100 % 10),
    ?_, natDigits_ne_nil _, natDigits_digits _, ?_, ?_, rfl⟩
  · split
    · exact Or.inr rfl
    · exact Or.inl rfl
  · exact digitChar_isDigit (by omega)
  · exact digitChar_isDigit (by omega)

lemma shapeStr_parts (r : ℝ) (i : Fin 4) :
    ∃ parts : List String, shapeStr r i = " ".intercalate parts ∧ parts ≠ [] ∧
      ∀ part ∈ parts, ∃ a b, part = a ++ "," ++ b ∧ TwoDecimal a ∧ TwoDecimal b := by
  refine ⟨(shapePoints r i).map fun p => fmt2 p.1 ++ "," ++ fmt2 p.2, ?_, ?_, ?_⟩
  · unfold shapeStr
    rfl
  · have h40 : (shapePoints r i).length = 40 := by
      unfold shapePoints
      rw [List.length_map, List.length_range]
    intro hnil
    have h0 := congrArg List.length hnil
    rw [List.length_map, h40] at h0
    simp at h0
  · intro part hp
    rcases List.mem_map.mp hp with ⟨p, hmem, rfl⟩
    exact ⟨fmt2 p.1, fmt2 p.2, rfl, fmtCenti_twoDecimal _, fmtCenti_twoDecimal _⟩

/-- Claim C7: every `shape` string in the edge descriptors returned by
`specify_edges` is a space-separated sequence of `"x,y"` pairs in which
each coordinate is formatted with exactly two decimal places (an optional
minus sign, digits, a point, and exactly two digits). -/
theorem shape_strings_two_decimal (r n s : ℝ) :
    ∀ e ∈ ringEdges r n s, ∃ parts : List String,
      e.shape = " ".intercalate parts ∧ parts ≠ [] ∧
        ∀ part ∈ parts, ∃ a b, part = a ++ "," ++ b ∧ TwoDecimal a ∧ TwoDecimal b := by
  intro e he
  simp only [ringEdges, List.mem_cons, List.not_mem_nil, or_false] at he
  have key : ∀ i : Fin 4, ∃ parts : List String,
      (edgeAt r n s i).shape = " ".intercalate parts ∧ parts ≠ [] ∧
        ∀ part ∈ parts, ∃ a b, part = a ++ "," ++ b ∧ TwoDecimal a ∧ TwoDecimal b := by
    intro i
    rw [edgeAt_shape]
    exact shapeStr_parts r i
  rcases he with rfl | rfl | rfl | rfl
  · exact key 0
  · exact key 1
  · exact key 2
  · exact key 3

/-- Witness for C7: the first edge descriptor of the ring at radius `40`,
lane count `1`, speed limit `30`. -/
theorem shape_strings_two_decimal_witness :
    edgeAt 40 1 30 0 ∈ ringEdges 40 1 30 ∧
      ∃ parts : List String,
        (edgeAt 40 1 30 0).shape = " ".intercalate parts ∧ parts ≠ [] ∧
          ∀ part ∈ parts, ∃ a b, part = a ++ "," ++ b ∧ TwoDecimal a ∧ TwoDecimal b := by
  have hmem : edgeAt 40 1 30 0 ∈ ringEdges 40 1 30 := List.mem_cons_self _ _
  exact ⟨hmem, shape_strings_two_decimal 40 1 30 _ hmem⟩

/-- Counterexample for C8: with the `"radius"` key absent from the
configuration dict, `specify_nodes` and `specify_edges` fail with the late
key-lookup failure `KeyError "radius"`, not with a `ConfigurationError`. -/
theorem missing_radius_is_key_lookup_failure :
    specify_nodes [] = .error (.keyError "radius") ∧
      specify_nodes [] ≠ .error .configError ∧
      specify_edges [] = .error (.keyError "radius") ∧
      specify_edges [] ≠ .error .configError := by
  refine ⟨rfl, ?_, rfl, ?_⟩
  · intro hco
    have h1 : specify_nodes [] = Except.error (PyErr.keyError "radius") := rfl
    rw [h1] at hco
    injection hco with h2
    exact PyErr.noConfusion h2
  · intro hco
    have h1 : specify_edges [] = Except.error (PyErr.keyError "radius") := rfl
    rw [h1] at hco
    injection hco with h2
    exact PyErr.noConfusion h2

/-- Amended C8: if a required numeric parameter (`radius`, `num_lanes` or
`speed_limit`) is absent from the configuration dict, `specify_nodes` and
`specify_edges` fail with a `KeyError` naming the missing key — a late
key-lookup failure raised by the dict access, not a `ConfigurationError`
and not a silent default. -/
theorem missing_param_key_error (ps : AdditionalParams) :
    (ps.lookup "radius" = none →
        specify_nodes ps = .error (.keyError "radius") ∧
          specify_edges ps = .error (.keyError "radius")) ∧
      (∀ q, ps.lookup "radius" = some q → ps.lookup "num_lanes" = none →
        specify_edges ps = .error (.keyError "num_lanes")) ∧
      (∀ q u, ps.lookup "radius" = some q → ps.lookup "num_lanes" = some u →
        ps.lookup "speed_limit" = none →
        specify_edges ps = .error (.keyError "speed_limit")) := by
  refine ⟨fun h => ⟨?_, ?_⟩, fun q hq hn => ?_, fun q u hq hu hs => ?_⟩
  · simp [specify_nodes, getParam, h, Bind.bind, Except.bind]
  · simp [specify_edges, getParam, h, Bind.bind, Except.bind]
  · simp [specify_edges, getParam, hq, hn, Bind.bind, Except.bind]
  · simp [specify_edges, getParam, hq, hu, hs, Bind.bind, Except.bind]

/-- Witness for the amended C8: concrete dicts missing `radius`,
`num_lanes` and `speed_limit` respectively. -/
theorem missing_param_key_error_witness :
    specify_nodes [] = .error (.keyError "radius") ∧
      specify_edges [("radius", 40)] = .error (.keyError "num_lanes") ∧
      specify_edges [("radius", 40), ("num_lanes", 1)] =
        .error (.keyError "speed_limit") :=
  ⟨((missing_param_key_error []).1 rfl).1,
    (missing_param_key_error [("radius", 40)]).2.1 40 rfl rfl,
    (missing_param_key_error [("radius", 40), ("num_lanes", 1)]).2.2 40 1 rfl rfl rfl⟩

/-- Counterexample for C9: in the descriptors produced by `specify_nodes`
and `specify_edges` on the tutorial's `ADDITIONAL_NET_PARAMS`, the node
coordinates and the edge lengths are not Python floats — they are `repr`
strings (`isFloat` is `false` for every `x`, `y` and `length` value). -/
theorem descriptor_values_not_floats :
    (specify_nodes ADDITIONAL_NET_PARAMS).map (fun l => l.map fun nd => nd.x.isFloat) =
        .ok [false, false, false, false] ∧
      (specify_nodes ADDITIONAL_NET_PARAMS).map (fun l => l.map fun nd => nd.y.isFloat) =
        .ok [false, false, false, false] ∧
      (specify_edges ADDITIONAL_NET_PARAMS).map (fun l => l.map fun e => e.length.isFloat) =
        .ok [false, false, false, false] :=
  ⟨rfl, rfl, rfl⟩

/-- Amended C9: in the descriptors produced by `specify_nodes` and
`specify_edges`, every node's `x` and `y` and every edge's numeric
attributes are `repr` strings of numbers; the underlying numbers satisfy
the data model's bounds whenever the supplied parameters do: the length
`r * pi / 2` is positive for radius `r > 0`, the lane count equals the
supplied `num_lanes` (`≥ 1` when it is), and the speed equals the supplied
`speed_limit` (`> 0` when it is). -/
theorem descriptor_values (r n s : ℝ) (hr : 0 < r) (hn : 1 ≤ n) (hs : 0 < s) :
    DescriptorValuesOK r n s := by
  constructor
  · intro nd hnd
    simp only [ringNodes, List.mem_cons, List.not_mem_nil, or_false] at hnd
    rcases hnd with rfl | rfl | rfl | rfl <;> exact ⟨⟨_, rfl⟩, ⟨_, rfl⟩⟩
  · intro e he
    simp only [ringEdges, List.mem_cons, List.not_mem_nil, or_false] at he
    have hlen : 0 < edgelen r := by
      unfold edgelen
      positivity
    rcases he with rfl | rfl | rfl | rfl <;> exact ⟨rfl, hlen, rfl, hn, rfl, hs⟩

/-- Witness for the amended C9 at the tutorial parameters
(radius `40`, `num_lanes = 1`, `speed_limit = 30`). -/
theorem descriptor_values_witness :
    (0:ℝ) < 40 ∧ (1:ℝ) ≤ 1 ∧ (0:ℝ) < 30 ∧ DescriptorValuesOK 40 1 30 :=
  ⟨by norm_num, le_refl 1, by norm_num,
    descriptor_values 40 1 30 (by norm_num) (le_refl 1) (by norm_num)⟩

end Flow
